import Mathlib

/-!
Verification of the rxprog boot-mode programmer core against its
natural-language specification.  The definitions below are a shallow
embedding of the Rust sources: bytes are `Nat` values (with `% 256`
where `u8` wrapping matters), byte streams are `List Nat`, fallible
reads return `Option`, and Rust panics are explicit constructors.
-/

namespace Rxprog

/-! ## L1 framing: `CommandData::bytes` (rxprog/src/command/command.rs) -/

/-- Embeds the Rust struct `CommandData { opcode: u8, has_size_field: bool,
payload: Vec<u8> }`. -/
structure CommandData where
  opcode : Nat
  has_size_field : Bool
  payload : List Nat
deriving DecidableEq, Repr

/-- Wrapping `u8` sum of a byte list, as computed by
`bytes.iter().map(|x| Wrapping(*x)).sum::<Wrapping<u8>>().0`. -/
def sumMod256 (l : List Nat) : Nat :=
  l.foldl (fun a x => (a + x) % 256) 0

/-- Embeds `CommandData::bytes`: opcode, optional one-byte size field
(`payload_size as u8`), payload, and, when the payload is non-empty, the
checksum byte `!sum + 1` (two's-complement negation of the wrapping sum). -/
def CommandData.bytes (c : CommandData) : List Nat :=
  let bytes1 := [c.opcode]
  let bytes2 := bytes1 ++ (if c.has_size_field then [c.payload.length % 256] else [])
  let bytes3 := bytes2 ++ c.payload
  if c.payload.length ≠ 0 then
    bytes3 ++ [(256 - sumMod256 bytes3) % 256]
  else
    bytes3

theorem foldl_addMod256 (l : List Nat) (a : Nat) (ha : a < 256) :
    l.foldl (fun s x => (s + x) % 256) a = (a + l.sum) % 256 := by
  induction l generalizing a with
  | nil => simp [Nat.mod_eq_of_lt ha]
  | cons x xs ih =>
      simp only [List.foldl_cons, List.sum_cons]
      rw [ih _ (Nat.mod_lt _ (by norm_num))]
      omega

theorem sumMod256_eq (l : List Nat) : sumMod256 l = l.sum % 256 := by
  simpa using foldl_addMod256 l 0 (by norm_num)

/-- The checksum byte makes every encoded frame with a non-empty payload sum
to a multiple of 256. -/
theorem bytes_sum_mod256 (c : CommandData) (hne : c.payload.length ≠ 0) :
    c.bytes.sum % 256 = 0 := by
  unfold CommandData.bytes
  simp only [ne_eq, hne, not_false_eq_true, if_pos]
  rw [List.sum_append]
  rw [sumMod256_eq]
  simp only [List.sum_cons, List.sum_nil]
  omega

/-! ## Data model: `MultiplicationRatio` (rxprog/src/command/data.rs) -/

/-- Embeds the enum `MultiplicationRatio`. -/
inductive MultRatio where
  | DivideBy (n : Nat)
  | MultiplyBy (n : Nat)
deriving DecidableEq, Repr

/-- Embeds `impl From<u8> for MultiplicationRatio`: interpret the byte as a
signed two's-complement value; negative means divide, positive means
multiply, and zero panics (modelled as `none`). -/
def MultRatio.ofByte (b : Nat) : Option MultRatio :=
  let signed : Int := if b < 128 then (b : Int) else (b : Int) - 256
  let r := signed.natAbs
  if signed < 0 then some (MultRatio.DivideBy r)
  else if 0 < signed then some (MultRatio.MultiplyBy r)
  else none

/-- Embeds `impl From<MultiplicationRatio> for u8`: division is encoded as the
two's-complement negation `-(ratio as i8) as u8`, multiplication as the ratio
itself. -/
def MultRatio.toByte : MultRatio → Nat
  | MultRatio.DivideBy r => (256 - r % 256) % 256
  | MultRatio.MultiplyBy r => r % 256

/-- C1: the encoder emits the opcode byte, then (when `has_size_field`) one
size byte equal to the payload length, then the payload, then exactly when
the payload is non-empty one checksum byte making the sum of all emitted
bytes divisible by 256; an empty-payload command without a size field
encodes to the single opcode byte. -/
theorem cmd_bytes_framing_C1 (c : CommandData)
    (hsz : c.has_size_field = true → c.payload.length ≤ 255) :
    ∃ cks : Nat, cks < 256 ∧
      c.bytes = [c.opcode]
        ++ (if c.has_size_field then [c.payload.length] else [])
        ++ c.payload
        ++ (if c.payload.length ≠ 0 then [cks] else [])
      ∧ (c.payload.length ≠ 0 → c.bytes.sum % 256 = 0)
      ∧ (c.payload.length = 0 → c.has_size_field = false → c.bytes = [c.opcode]) := by
  classical
  refine ⟨(256 - sumMod256 ([c.opcode]
      ++ (if c.has_size_field then [c.payload.length % 256] else [])
      ++ c.payload)) % 256, ?_, ?_, ?_, ?_⟩
  · exact Nat.mod_lt _ (by norm_num)
  · unfold CommandData.bytes
    cases h : c.has_size_field with
    | false =>
        by_cases hp : c.payload = [] <;> simp [hp]
    | true =>
        have := hsz h
        have hlen : c.payload.length % 256 = c.payload.length := Nat.mod_eq_of_lt (by omega)
        by_cases hp : c.payload = [] <;> simp [hp, hlen]
  · intro hne
    exact bytes_sum_mod256 c hne
  · intro hlen hb
    unfold CommandData.bytes
    simp [hlen, hb, List.length_eq_zero.mp hlen]

/-- Witness for C1 at the `DeviceSelection` frame of spec scenario E2E-2. -/
theorem cmd_bytes_framing_C1_witness :
    ∃ cks : Nat, cks < 256 ∧
      CommandData.bytes ⟨0x10, true, [0x44, 0x45, 0x56, 0x31]⟩ = [0x10]
        ++ (if (true : Bool) then [([0x44, 0x45, 0x56, 0x31] : List Nat).length] else [])
        ++ [0x44, 0x45, 0x56, 0x31]
        ++ (if ([0x44, 0x45, 0x56, 0x31] : List Nat).length ≠ 0 then [cks] else [])
      ∧ (([0x44, 0x45, 0x56, 0x31] : List Nat).length ≠ 0 →
          (CommandData.bytes ⟨0x10, true, [0x44, 0x45, 0x56, 0x31]⟩).sum % 256 = 0)
      ∧ (([0x44, 0x45, 0x56, 0x31] : List Nat).length = 0 → (true : Bool) = false →
          CommandData.bytes ⟨0x10, true, [0x44, 0x45, 0x56, 0x31]⟩ = [0x10]) :=
  cmd_bytes_framing_C1 ⟨0x10, true, [0x44, 0x45, 0x56, 0x31]⟩ (fun _ => by decide)

/-- C6: for ratios between 1 and 127, multiplication encodes to the ratio
itself and division to its two's-complement negation, decoding inverts
encoding in both directions, and the byte 0 is rejected by decoding. -/
theorem multiplication_ratio_codec_C6 (n : Nat) (h1 : 1 ≤ n) (h7 : n ≤ 127) :
    MultRatio.toByte (MultRatio.MultiplyBy n) = n
    ∧ MultRatio.toByte (MultRatio.DivideBy n) = 256 - n
    ∧ MultRatio.ofByte n = some (MultRatio.MultiplyBy n)
    ∧ MultRatio.ofByte (256 - n) = some (MultRatio.DivideBy n)
    ∧ MultRatio.ofByte (MultRatio.toByte (MultRatio.MultiplyBy n))
        = some (MultRatio.MultiplyBy n)
    ∧ MultRatio.ofByte (MultRatio.toByte (MultRatio.DivideBy n))
        = some (MultRatio.DivideBy n)
    ∧ MultRatio.ofByte 0 = none := by
  have hm : n % 256 = n := Nat.mod_eq_of_lt (by omega)
  have htm : MultRatio.toByte (MultRatio.MultiplyBy n) = n := by
    simp [MultRatio.toByte, hm]
  have htd : MultRatio.toByte (MultRatio.DivideBy n) = 256 - n := by
    simp only [MultRatio.toByte, hm]
    omega
  have hfm : MultRatio.ofByte n = some (MultRatio.MultiplyBy n) := by
    simp only [MultRatio.ofByte]
    have hlt : n < 128 := by omega
    simp only [if_pos hlt]
    have hpos : (0 : Int) < (n : Int) := by exact_mod_cast h1
    rw [if_neg (by omega), if_pos hpos]
    simp
  have hfd : MultRatio.ofByte (256 - n) = some (MultRatio.DivideBy n) := by
    simp only [MultRatio.ofByte]
    have hge : ¬ (256 - n < 128) := by omega
    simp only [if_neg hge]
    have hc : ((256 - n : Nat) : Int) = 256 - (n : Int) := by
      have : (n : Int) ≤ 256 := by exact_mod_cast (by omega : n ≤ 256)
      push_cast [Nat.cast_sub (by omega : n ≤ 256)]
      ring
    rw [hc]
    have hneg : (256 : Int) - (n : Int) - 256 < 0 := by
      have : (0 : Int) < (n : Int) := by exact_mod_cast h1
      omega
    rw [if_pos hneg]
    congr 1
    congr 1
    have : (256 : Int) - (n : Int) - 256 = -(n : Int) := by ring
    rw [this]
    simp
  refine ⟨htm, htd, hfm, hfd, ?_, ?_, by decide⟩
  · rw [htm]; exact hfm
  · rw [htd]; exact hfd

/-- Witness for C6 at ratio 2 (matching the doctest examples in data.rs). -/
theorem multiplication_ratio_codec_C6_witness :
    MultRatio.toByte (MultRatio.MultiplyBy 2) = 2
    ∧ MultRatio.toByte (MultRatio.DivideBy 2) = 256 - 2
    ∧ MultRatio.ofByte 2 = some (MultRatio.MultiplyBy 2)
    ∧ MultRatio.ofByte (256 - 2) = some (MultRatio.DivideBy 2)
    ∧ MultRatio.ofByte (MultRatio.toByte (MultRatio.MultiplyBy 2))
        = some (MultRatio.MultiplyBy 2)
    ∧ MultRatio.ofByte (MultRatio.toByte (MultRatio.DivideBy 2))
        = some (MultRatio.DivideBy 2)
    ∧ MultRatio.ofByte 0 = none :=
  multiplication_ratio_codec_C6 2 (by decide) (by decide)

/-! ## L1 response parsing: `ResponseReader` (rxprog/src/command/reader.rs) -/

/-- Outcome of `ResponseReader::read_response` over a byte stream: a parsed
body with the unconsumed remainder, a device error code, the
`panic!("Unknown first byte")` branch, or a transport I/O failure. -/
inductive ReadOutcome (α : Type) where
  | ok (v : α) (rest : List Nat)
  | err (code : Nat) (rest : List Nat)
  | panicked
  | ioError
deriving DecidableEq, Repr

/-- Embeds a one-byte `io::Read::read` into a zero-initialized buffer: a
stream that yields no bytes leaves the buffer zero and reports no error. -/
def read1 : List Nat → Nat × List Nat
  | [] => (0, [])
  | b :: rest => (b, rest)

/-- Embeds `ResponseReader::read_first_byte` (which uses `read`, not
`read_exact`). -/
def readFirstByte (input : List Nat) : Nat × List Nat := read1 input

/-- Embeds `io::Read::read_exact` on a byte stream: `n` bytes or an error. -/
def readExact (n : Nat) (input : List Nat) : Option (List Nat × List Nat) :=
  if n ≤ input.length then some (input.take n, input.drop n) else none

/-- Big-endian value of a byte list (`uN::from_be_bytes`). -/
def beVal (l : List Nat) : Nat := l.foldl (fun a b => a * 256 + b) 0

/-- Embeds `ResponseSize::read_size` for width `w` bytes (1, 2 or 4 in the
source): `read_exact` into a `w`-byte buffer, then `from_be_bytes`. -/
def read_size (w : Nat) (input : List Nat) : Option (Nat × List Nat) :=
  match readExact w input with
  | some (bs, rest) => some (beVal bs, rest)
  | none => none

/-- Embeds `SimpleResponse::read_body`: yields the first byte verbatim. -/
def simpleBody (first_byte : Nat) (input : List Nat) : Option (Nat × List Nat) :=
  some (first_byte, input)

/-- Embeds `SizedResponse::<T>::read_body`: read the size word, then that
many payload bytes, then one checksum byte which is consumed and discarded. -/
def sizedBody (w : Nat) (_first_byte : Nat) (input : List Nat) :
    Option (List Nat × List Nat) :=
  match read_size w input with
  | none => none
  | some (size, r1) =>
    match readExact size r1 with
    | none => none
    | some (data, r2) =>
      match readExact 1 r2 with
      | none => none
      | some (_cks, r3) => some (data, r3)

/-- Embeds `ResponseReader::<_, _, NoError>::read_response`: one first byte,
then the body if the byte is permitted, else the unknown-first-byte panic. -/
def readResponseNE {α : Type} (response_first_bytes : List Nat)
    (body : Nat → List Nat → Option (α × List Nat)) (input : List Nat) :
    ReadOutcome α :=
  let fbr := readFirstByte input
  if fbr.1 ∈ response_first_bytes then
    match body fbr.1 fbr.2 with
    | some (v, r) => ReadOutcome.ok v r
    | none => ReadOutcome.ioError
  else
    ReadOutcome.panicked

/-- Embeds `ResponseReader::<_, _, WithError>::read_response`: the error
first byte is checked first and is followed by a one-byte error code (also
read with the zero-defaulting `read`). -/
def readResponseWE {α : Type} (response_first_bytes : List Nat)
    (error_first_byte : Nat)
    (body : Nat → List Nat → Option (α × List Nat)) (input : List Nat) :
    ReadOutcome α :=
  let fbr := readFirstByte input
  if fbr.1 = error_first_byte then
    let cr := read1 fbr.2
    ReadOutcome.err cr.1 cr.2
  else if fbr.1 ∈ response_first_bytes then
    match body fbr.1 fbr.2 with
    | some (v, r) => ReadOutcome.ok v r
    | none => ReadOutcome.ioError
  else
    ReadOutcome.panicked

theorem readExact_append (a b : List Nat) :
    readExact a.length (a ++ b) = some (a, b) := by
  simp [readExact]

/-- C2: for a sized response of width `w`, after an accepted first byte the
reader consumes exactly the `w`-byte big-endian length `n`, then `n` payload
bytes, then one checksum byte (not inspected), and yields the payload with
the rest of the stream untouched; fewer than `w + n + 1` bytes after the
first byte is an I/O error. -/
theorem sized_response_width_C2 (w : Nat) (_hw : w = 1 ∨ w = 2 ∨ w = 4)
    (fbs : List Nat) (fb : Nat) (hfb : fb ∈ fbs)
    (sz payload rest : List Nat) (cks : Nat)
    (hsz : sz.length = w) (hp : payload.length = beVal sz) :
    readResponseNE fbs (sizedBody w) (fb :: (sz ++ (payload ++ cks :: rest)))
        = ReadOutcome.ok payload rest
    ∧ (∀ d : List Nat, d.length ≤ beVal sz →
        readResponseNE fbs (sizedBody w) (fb :: (sz ++ d)) = ReadOutcome.ioError)
    ∧ (∀ s : List Nat, s.length < w →
        readResponseNE fbs (sizedBody w) (fb :: s) = ReadOutcome.ioError) := by
  subst hsz
  refine ⟨?_, ?_, ?_⟩
  · have e1 : read_size sz.length (sz ++ (payload ++ cks :: rest))
        = some (beVal sz, payload ++ cks :: rest) := by
      simp [read_size, readExact_append]
    have e2 : readExact (beVal sz) (payload ++ cks :: rest)
        = some (payload, cks :: rest) := by
      rw [← hp]; exact readExact_append payload (cks :: rest)
    have e3 : readExact 1 (cks :: rest) = some ([cks], rest) := by
      simp [readExact]
    simp [readResponseNE, readFirstByte, read1, hfb, sizedBody, e1, e2, e3]
  · intro d hd
    have e1 : read_size sz.length (sz ++ d) = some (beVal sz, d) := by
      simp [read_size, readExact_append]
    rcases Nat.lt_or_ge d.length (beVal sz) with hlt | hge
    · have e2 : readExact (beVal sz) d = none := by
        unfold readExact
        rw [if_neg]
        omega
      simp [readResponseNE, readFirstByte, read1, hfb, sizedBody, e1, e2]
    · have hdl : d.length = beVal sz := le_antisymm hd hge
      have e2 : readExact (beVal sz) d = some (d, []) := by
        rw [← hdl]
        simpa using readExact_append d []
      have e3 : readExact 1 ([] : List Nat) = none := by
        simp [readExact]
      simp [readResponseNE, readFirstByte, read1, hfb, sizedBody, e1, e2, e3]
  · intro s hs
    have e1 : readExact sz.length s = none := by
      unfold readExact
      rw [if_neg]
      omega
    simp [readResponseNE, readFirstByte, read1, hfb, sizedBody, read_size, e1]

/-- Witness for C2: a `Sized<u16>` response with a 2-byte payload. -/
theorem sized_response_width_C2_witness :
    readResponseNE [0x30] (sizedBody 2)
        (0x30 :: ([0x00, 0x02] ++ ([0x12, 0x34] ++ 0x98 :: [])))
        = ReadOutcome.ok [0x12, 0x34] []
    ∧ (∀ d : List Nat, d.length ≤ beVal [0x00, 0x02] →
        readResponseNE [0x30] (sizedBody 2) (0x30 :: ([0x00, 0x02] ++ d))
          = ReadOutcome.ioError)
    ∧ (∀ s : List Nat, s.length < 2 →
        readResponseNE [0x30] (sizedBody 2) (0x30 :: s) = ReadOutcome.ioError) :=
  sized_response_width_C2 2 (by decide) [0x30] 0x30 (by decide)
    [0x00, 0x02] [0x12, 0x34] [] 0x98 (by decide) (by decide)

/-! ## `ReadLockBitStatus` (rxprog/src/command/commands/pe_11_read_lock_bit_status.rs) -/

/-- Embeds the enum `LockBitStatus`. -/
inductive LockBitStatus where
  | Locked
  | Unlocked
deriving DecidableEq, Repr

/-- Embeds the enum `ReadLockBitStatusError`. -/
inductive ReadLockBitStatusError where
  | Checksum
  | Address
deriving DecidableEq, Repr

/-- Typed outcome of a command's `rx`: success value or domain error (each
with the unconsumed remainder of the stream), a panic, or an I/O failure. -/
inductive RxResult (α ε : Type) where
  | ok (v : α) (rest : List Nat)
  | err (e : ε) (rest : List Nat)
  | panicked
  | ioError
deriving DecidableEq, Repr

/-- Embeds `ReadLockBitStatus::rx`: a `SimpleResponse` reader with success
first bytes 0x00 and 0x40 and error first byte 0xF1, mapping 0x00 to
`Locked`, 0x40 to `Unlocked`, error code 0x11 to `Checksum` and 0x2A to
`Address` (anything else panics). -/
def readLockBitStatus_rx (input : List Nat) :
    RxResult LockBitStatus ReadLockBitStatusError :=
  match readResponseWE [0x00, 0x40] 0xF1 simpleBody input with
  | ReadOutcome.ok fb rest =>
      if fb = 0x00 then RxResult.ok LockBitStatus.Locked rest
      else if fb = 0x40 then RxResult.ok LockBitStatus.Unlocked rest
      else RxResult.panicked
  | ReadOutcome.err c rest =>
      if c = 0x11 then RxResult.err ReadLockBitStatusError.Checksum rest
      else if c = 0x2A then RxResult.err ReadLockBitStatusError.Address rest
      else RxResult.panicked
  | ReadOutcome.panicked => RxResult.panicked
  | ReadOutcome.ioError => RxResult.ioError

/-- C10: when the stream yields zero bytes at the first-byte read (or at the
error-code read), the reader reports no I/O or framing error and behaves as
if it had read 0x00; for `ReadLockBitStatus`, whose permitted first bytes
include 0x00, an empty stream therefore decodes as a `Locked` status. -/
theorem empty_read_zero_byte_C10 (fbs : List Nat) (errB : Nat)
    (h0 : 0 ∈ fbs) (hne : errB ≠ 0) :
    readResponseWE fbs errB simpleBody [] = ReadOutcome.ok 0 []
    ∧ readResponseWE fbs errB simpleBody [errB] = ReadOutcome.err 0 []
    ∧ readLockBitStatus_rx [] = RxResult.ok LockBitStatus.Locked [] := by
  refine ⟨?_, ?_, by decide⟩
  · simp only [readResponseWE, readFirstByte, read1]
    rw [if_neg (by omega), if_pos h0]
    rfl
  · simp [readResponseWE, readFirstByte, read1]

/-- Witness for C10 at the `ReadLockBitStatus` reader configuration. -/
theorem empty_read_zero_byte_C10_witness :
    readResponseWE [0x00, 0x40] 0xF1 simpleBody [] = ReadOutcome.ok 0 []
    ∧ readResponseWE [0x00, 0x40] 0xF1 simpleBody [0xF1] = ReadOutcome.err 0 []
    ∧ readLockBitStatus_rx [] = RxResult.ok LockBitStatus.Locked [] :=
  empty_read_zero_byte_C10 [0x00, 0x40] 0xF1 (by decide) (by decide)

/-! ## Area information inquiries (is_07 / is_08) -/

/-- Embeds `UserAreaInformationInquiry::command_data` (is_08): the source
declares opcode 0x24 with no size field. -/
def userAreaInformationInquiry_command_data : CommandData :=
  ⟨0x24, false, []⟩

/-- Embeds `UserBootAreaInformationInquiry::command_data` (is_07): opcode
0x24 with no size field. -/
def userBootAreaInformationInquiry_command_data : CommandData :=
  ⟨0x24, false, []⟩

/-- Embeds the reader configuration of `UserAreaInformationInquiry::rx`
(is_08): a `Sized<u8>` response whose only permitted first byte is 0x34,
yielding the raw sized payload. -/
def userAreaInformationInquiry_read (input : List Nat) : ReadOutcome (List Nat) :=
  readResponseNE [0x34] (sizedBody 1) input

/-- C5 (evaluation of the code): the user-area inquiry transmits opcode 0x24
(not 0x25), identically to the user-boot-area inquiry, and its reader
accepts first byte 0x34 while a response starting 0x35 hits the
unknown-first-byte panic. -/
theorem user_area_inquiry_opcode_C5 :
    userAreaInformationInquiry_command_data.bytes = [0x24]
    ∧ userAreaInformationInquiry_command_data.opcode ≠ 0x25
    ∧ userAreaInformationInquiry_command_data
        = userBootAreaInformationInquiry_command_data
    ∧ userAreaInformationInquiry_read [0x35, 0x01, 0x07, 0x99]
        = ReadOutcome.panicked
    ∧ userAreaInformationInquiry_read [0x34, 0x01, 0x07, 0x99]
        = ReadOutcome.ok [0x07] [] := by
  decide

/-! ## L3 session: `Programmer::connect` (rxprog/src/programmer.rs)

The serial target is modelled deterministically: `input` is the receive
buffer, `arrivals` lists the byte batches that reach the buffer at each
successive 10 ms sleep, `output` collects written bytes and `bauds` the baud
rates set, in order. -/

structure ConnTarget where
  input : List Nat
  arrivals : List (List Nat)
  output : List Nat
  bauds : List Nat
deriving DecidableEq, Repr

/-- Embeds `Target::write`. -/
def ConnTarget.write (t : ConnTarget) (bs : List Nat) : ConnTarget :=
  { t with output := t.output ++ bs }

/-- Embeds the 10 ms `thread::sleep`: the next pending batch (if any)
arrives in the receive buffer. -/
def ConnTarget.sleep (t : ConnTarget) : ConnTarget :=
  match t.arrivals with
  | [] => t
  | a :: rest => { t with input := t.input ++ a, arrivals := rest }

/-- Embeds `Target::set_baud_rate`. -/
def ConnTarget.set_baud_rate (t : ConnTarget) (b : Nat) : ConnTarget :=
  { t with bauds := t.bauds ++ [b] }

/-- Embeds `Target::bytes_to_read`: the pending byte count. -/
def ConnTarget.bytes_to_read (t : ConnTarget) : Nat := t.input.length

/-- Embeds a one-byte `read_exact`: an empty buffer is a read failure. -/
def ConnTarget.read_exact1 (t : ConnTarget) : Option (Nat × ConnTarget) :=
  match t.input with
  | [] => none
  | b :: rest => some (b, { t with input := rest })

/-- Embeds the probe loop `while bytes_to_read < 1 && attempts < 30 { write
0x00; sleep 10ms }`; the fuel is the number of attempts remaining. -/
def probeLoop : Nat → ConnTarget → ConnTarget
  | 0, t => t
  | fuel + 1, t =>
      if t.bytes_to_read < 1 then probeLoop fuel ((t.write [0x00]).sleep)
      else t

/-- Embeds the `for baud_rate in &[9600, 4800, 2400, 1200, 0]` loop of
`connect`: returns `false` on the 0 sentinel (`NoResponse`), `true` as soon
as a probe loop ends with at least one pending byte. -/
def findBaud : List Nat → ConnTarget → Bool × ConnTarget
  | [], t => (false, t)
  | b :: rest, t =>
      if b = 0 then (false, t)
      else
        if 1 ≤ (probeLoop 30 (t.set_baud_rate b)).bytes_to_read
        then (true, probeLoop 30 (t.set_baud_rate b))
        else findBaud rest (probeLoop 30 (t.set_baud_rate b))

/-- Outcome of `Programmer::connect`: the `ConnectError` variants of
programmer.rs, success, or a transport I/O failure. -/
inductive ConnectResult where
  | Connected
  | NoResponse
  | BadResponse
  | Failed
  | IoFailure
deriving DecidableEq, Repr

/-- Embeds `Programmer::connect` after the reset and buffer clear: probe the
baud rates, then read one byte (must be 0x00), write 0x55, and classify the
next byte (0xE6 connected, 0xFF failed, otherwise a bad response). -/
def connect (t : ConnTarget) : ConnectResult × ConnTarget :=
  match findBaud [9600, 4800, 2400, 1200, 0] t with
  | (false, t1) => (ConnectResult.NoResponse, t1)
  | (true, t1) =>
    match t1.read_exact1 with
    | none => (ConnectResult.IoFailure, t1)
    | some (r1, t2) =>
      if r1 ≠ 0x00 then (ConnectResult.BadResponse, t2)
      else
        let t3 := t2.write [0x55]
        match t3.read_exact1 with
        | none => (ConnectResult.IoFailure, t3)
        | some (r2, t4) =>
          if r2 = 0xE6 then (ConnectResult.Connected, t4)
          else if r2 = 0xFF then (ConnectResult.Failed, t4)
          else (ConnectResult.BadResponse, t4)

/-- On a target that never produces a byte, the probe loop writes all of its
probe bytes and changes nothing else. -/
theorem probeLoop_unresponsive (fuel : Nat) :
    ∀ t : ConnTarget, t.input = [] → (∀ a ∈ t.arrivals, a = []) →
    ∃ ar2, probeLoop fuel t
        = ⟨[], ar2, t.output ++ List.replicate fuel 0x00, t.bauds⟩
      ∧ ∀ a ∈ ar2, a = [] := by
  induction fuel with
  | zero =>
      intro t h1 h2
      refine ⟨t.arrivals, ?_, h2⟩
      cases t
      simp_all [probeLoop]
  | succ n ih =>
      intro t h1 h2
      have hbtr : t.bytes_to_read < 1 := by
        simp [ConnTarget.bytes_to_read, h1]
      rw [probeLoop, if_pos hbtr]
      cases harr : t.arrivals with
      | nil =>
          obtain ⟨ar2, he, ha⟩ := ih ((t.write [0x00]).sleep)
            (by simp [ConnTarget.write, ConnTarget.sleep, harr, h1])
            (by simp [ConnTarget.write, ConnTarget.sleep, harr])
          refine ⟨ar2, ?_, ha⟩
          rw [he]
          simp [ConnTarget.write, ConnTarget.sleep, harr, List.replicate_succ]
      | cons a rest =>
          have ha0 : a = [] := h2 a (by rw [harr]; exact List.mem_cons_self a rest)
          obtain ⟨ar2, he, ha⟩ := ih ((t.write [0x00]).sleep)
            (by simp [ConnTarget.write, ConnTarget.sleep, harr, h1, ha0])
            (by
              intro x hx
              refine h2 x ?_
              simp only [ConnTarget.write, ConnTarget.sleep, harr] at hx
              rw [harr]
              exact List.mem_cons_of_mem a hx)
          refine ⟨ar2, ?_, ha⟩
          rw [he]
          simp [ConnTarget.write, ConnTarget.sleep, harr, List.replicate_succ]

/-- A probe loop that already sees a pending byte does nothing. -/
theorem probeLoop_ready (fuel : Nat) (t : ConnTarget)
    (h : 1 ≤ t.bytes_to_read) : probeLoop fuel t = t := by
  cases fuel with
  | zero => rfl
  | succ n =>
      rw [probeLoop, if_neg]
      omega

/-- One unresponsive baud rate: thirty probes are emitted, the rate is
recorded, and the search moves to the next rate. -/
theorem findBaud_unresponsive_step (b : Nat) (hb : b ≠ 0) (rest : List Nat)
    (ar : List (List Nat)) (out bds : List Nat) (h2 : ∀ a ∈ ar, a = []) :
    ∃ ar2, (∀ a ∈ ar2, a = [])
      ∧ findBaud (b :: rest) ⟨[], ar, out, bds⟩
          = findBaud rest ⟨[], ar2, out ++ List.replicate 30 0x00,
              bds ++ [b]⟩ := by
  obtain ⟨ar2, he, ha⟩ := probeLoop_unresponsive 30
    ((ConnTarget.mk [] ar out bds).set_baud_rate b) rfl h2
  refine ⟨ar2, ha, ?_⟩
  rw [findBaud, if_neg hb]
  simp only [ConnTarget.set_baud_rate] at he ⊢
  rw [he]
  simp [ConnTarget.bytes_to_read]

/-- C3: connect tries 9600, 4800, 2400, 1200 in order with up to 30 probe
bytes 0x00 per rate and fails `NoResponse` when all are exhausted; as soon
as a byte is pending it stops probing, reads one byte which must be 0x00
(else `BadResponse`), writes 0x55, and classifies the next byte (0xE6
connected, 0xFF `Failed`, anything else `BadResponse`); a byte arriving
during a later rate's probing stops the search there. -/
theorem connect_handshake_C3 (ar : List (List Nat)) (har : ∀ a ∈ ar, a = [])
    (r1 r2 : Nat) :
    ((connect ⟨[], ar, [], []⟩).1 = ConnectResult.NoResponse
      ∧ (connect ⟨[], ar, [], []⟩).2.output = List.replicate 120 0x00
      ∧ (connect ⟨[], ar, [], []⟩).2.bauds = [9600, 4800, 2400, 1200])
    ∧ (r1 ≠ 0x00 → connect ⟨[r1, r2], [], [], []⟩
        = (ConnectResult.BadResponse, ⟨[r2], [], [], [9600]⟩))
    ∧ connect ⟨[0x00, r2], [], [], []⟩
        = ((if r2 = 0xE6 then ConnectResult.Connected
            else if r2 = 0xFF then ConnectResult.Failed
            else ConnectResult.BadResponse), ⟨[], [], [0x55], [9600]⟩)
    ∧ connect ⟨[], List.replicate 35 [] ++ [[0x00, 0xE6]], [], []⟩
        = (ConnectResult.Connected,
           ⟨[], [], List.replicate 36 0x00 ++ [0x55], [9600, 4800]⟩) := by
  refine ⟨?_, ?_, ?_, by decide⟩
  · obtain ⟨a1, ha1, e1⟩ := findBaud_unresponsive_step 9600 (by norm_num)
      [4800, 2400, 1200, 0] ar [] [] har
    obtain ⟨a2, ha2, e2⟩ := findBaud_unresponsive_step 4800 (by norm_num)
      [2400, 1200, 0] a1 ([] ++ List.replicate 30 0x00) ([] ++ [9600]) ha1
    obtain ⟨a3, ha3, e3⟩ := findBaud_unresponsive_step 2400 (by norm_num)
      [1200, 0] a2 (([] ++ List.replicate 30 0x00) ++ List.replicate 30 0x00)
      (([] ++ [9600]) ++ [4800]) ha2
    obtain ⟨a4, ha4, e4⟩ := findBaud_unresponsive_step 1200 (by norm_num)
      [0] a3 ((([] ++ List.replicate 30 0x00) ++ List.replicate 30 0x00)
        ++ List.replicate 30 0x00)
      ((([] ++ [9600]) ++ [4800]) ++ [2400]) ha3
    have efb : findBaud [9600, 4800, 2400, 1200, 0] ⟨[], ar, [], []⟩
        = (false, ⟨[], a4,
            ((([] ++ List.replicate 30 0x00) ++ List.replicate 30 0x00)
              ++ List.replicate 30 0x00) ++ List.replicate 30 0x00,
            ((([] ++ [9600]) ++ [4800]) ++ [2400]) ++ [1200]⟩) := by
      rw [e1, e2, e3, e4, findBaud, if_pos rfl]
    unfold connect
    rw [efb]
    refine ⟨rfl, ?_, by simp⟩
    simp [← List.replicate_add]
  · intro hr1
    have hfb : findBaud [9600, 4800, 2400, 1200, 0] ⟨[r1, r2], [], [], []⟩
        = (true, ⟨[r1, r2], [], [], [9600]⟩) := by
      rw [findBaud, if_neg (by norm_num),
        probeLoop_ready 30 _ (by simp [ConnTarget.set_baud_rate, ConnTarget.bytes_to_read])]
      simp [ConnTarget.set_baud_rate, ConnTarget.bytes_to_read, findBaud]
    unfold connect
    rw [hfb]
    simp [ConnTarget.read_exact1, hr1]
  · have hfb : findBaud [9600, 4800, 2400, 1200, 0] ⟨[0x00, r2], [], [], []⟩
        = (true, ⟨[0x00, r2], [], [], [9600]⟩) := by
      rw [findBaud, if_neg (by norm_num),
        probeLoop_ready 30 _ (by simp [ConnTarget.set_baud_rate, ConnTarget.bytes_to_read])]
      simp [ConnTarget.set_baud_rate, ConnTarget.bytes_to_read, findBaud]
    unfold connect
    rw [hfb]
    simp only [ConnTarget.read_exact1, ConnTarget.write]
    norm_num
    split_ifs <;> simp_all

/-- Witness for C3: a non-zero first byte yields `BadResponse`. -/
theorem connect_handshake_C3_witness :
    connect ⟨[0x01, 0xE6], [], [], []⟩
      = (ConnectResult.BadResponse, ⟨[0xE6], [], [], [9600]⟩) :=
  (connect_handshake_C3 [] (by simp) 0x01 0xE6).2.1 (by decide)

/-! ## L2/L3: commands driven over the transport (programmer.rs and
commands/)

The transport is modelled as the remaining byte stream to read plus the
trace of externally visible actions: writes (`Transmit::tx` writes the
encoded frame and flushes) and baud-rate changes. -/

/-- An externally visible transport action. -/
inductive Ev where
  | w (bs : List Nat)
  | baud (b : Nat)
deriving DecidableEq, Repr

structure PTarget where
  input : List Nat
  events : List Ev
deriving DecidableEq, Repr

/-- Embeds `Transmit::tx`: write the encoded command frame and flush. -/
def PTarget.tx (t : PTarget) (bs : List Nat) : PTarget :=
  ⟨t.input, t.events ++ [Ev.w bs]⟩

/-- Embeds `SerialPort::set_baud_rate` as seen from the session layer. -/
def PTarget.set_baud_rate (t : PTarget) (b : Nat) : PTarget :=
  ⟨t.input, t.events ++ [Ev.baud b]⟩

/-- Big-endian bytes of a `u16` (`u16::to_be_bytes`). -/
def be16 (v : Nat) : List Nat := [v / 256 % 256, v % 256]

/-- Big-endian bytes of a `u32` (`u32::to_be_bytes`). -/
def be32 (v : Nat) : List Nat :=
  [v / 16777216 % 256, v / 65536 % 256, v / 256 % 256, v % 256]

/-- Outcome of executing one command from a phase that survives the call
(`&mut self`): the typed domain error or success, a panic, or I/O failure. -/
inductive CmdOutcome (ε : Type) where
  | ok
  | domainError (e : ε)
  | panicked
  | ioError
deriving DecidableEq, Repr

/-- Outcome of a phase-consuming session operation (`self` by value): on
success the successor phase holds the transport; on a domain error only the
error value is returned and the session value is dropped. -/
inductive SessionStep (ε : Type) where
  | next (t : PTarget)
  | domainError (e : ε)
  | panicked
  | ioError
deriving DecidableEq, Repr

/-- Embeds the enum `DeviceSelectionError` (is_02). -/
inductive DeviceSelectionError where
  | Checksum
  | DeviceCode
deriving DecidableEq, Repr

/-- Embeds `DeviceSelection::command_data` (is_02): opcode 0x10 with a size
field and the 4 device-code bytes as payload. -/
def deviceSelection_command_data (device_code : List Nat) : CommandData :=
  ⟨0x10, true, device_code⟩

/-- Embeds `ProgrammerConnected::select_device`: transmit the command, read a
Simple response (success 0x06, error first byte 0x90, codes 0x11/0x21); the
receiving phase value is consumed, so a domain error returns no session. -/
def select_device (device_code : List Nat) (t : PTarget) :
    SessionStep DeviceSelectionError :=
  if device_code.length ≠ 4 then SessionStep.panicked
  else
    match readResponseWE [0x06] 0x90 simpleBody
        (t.tx (deviceSelection_command_data device_code).bytes).input with
    | ReadOutcome.ok _ rest =>
        SessionStep.next ⟨rest,
          (t.tx (deviceSelection_command_data device_code).bytes).events⟩
    | ReadOutcome.err c _ =>
        if c = 0x11 then SessionStep.domainError DeviceSelectionError.Checksum
        else if c = 0x21 then
          SessionStep.domainError DeviceSelectionError.DeviceCode
        else SessionStep.panicked
    | ReadOutcome.panicked => SessionStep.panicked
    | ReadOutcome.ioError => SessionStep.ioError

/-- Embeds the enum `NewBitRateSelectionError` (is_11a). -/
inductive NewBitRateSelectionError where
  | Checksum
  | BitRateSelection
  | InputFrequency
  | MultiplicationRatio
  | OperatingFrequency
deriving DecidableEq, Repr

/-- Embeds `NewBitRateSelection::command_data` (is_11a): opcode 0x3F with a
size field; payload is big-endian bit rate and input frequency, the ratio
count, then one encoded byte per ratio. -/
def newBitRateSelection_command_data (bit_rate input_frequency : Nat)
    (multiplication_ratios : List MultRatio) : CommandData :=
  ⟨0x3F, true,
    be16 bit_rate ++ be16 input_frequency
      ++ [multiplication_ratios.length % 256]
      ++ multiplication_ratios.map MultRatio.toByte⟩

/-- Embeds `NewBitRateSelectionConfirmation::command_data` (is_11b): the
opcode-only command 0x06. -/
def newBitRateSelectionConfirmation_command_data : CommandData :=
  ⟨0x06, false, []⟩

/-- Embeds `ProgrammerConnectedClockModeSelected::set_new_bit_rate`: on the
0x06 acknowledgement the local baud rate is set to `bit_rate * 100` computed
in `u16` (so modulo 2^16) and only then is the confirmation command sent,
whose reader expects 0x06 back; a domain error drops the session value. -/
def set_new_bit_rate (bit_rate input_frequency : Nat)
    (multiplication_ratios : List MultRatio) (t : PTarget) :
    SessionStep NewBitRateSelectionError :=
  match readResponseWE [0x06] 0xBF simpleBody
      (t.tx (newBitRateSelection_command_data bit_rate input_frequency
        multiplication_ratios).bytes).input with
  | ReadOutcome.ok _ rest =>
      match readResponseNE [0x06] simpleBody rest with
      | ReadOutcome.ok _ rest2 =>
          SessionStep.next ⟨rest2,
            (((PTarget.mk rest
                (t.tx (newBitRateSelection_command_data bit_rate
                  input_frequency multiplication_ratios).bytes).events).set_baud_rate
                (bit_rate * 100 % 65536)).tx
              newBitRateSelectionConfirmation_command_data.bytes).events⟩
      | ReadOutcome.err _ _ => SessionStep.panicked
      | ReadOutcome.panicked => SessionStep.panicked
      | ReadOutcome.ioError => SessionStep.ioError
  | ReadOutcome.err c _ =>
      if c = 0x11 then SessionStep.domainError NewBitRateSelectionError.Checksum
      else if c = 0x24 then
        SessionStep.domainError NewBitRateSelectionError.BitRateSelection
      else if c = 0x25 then
        SessionStep.domainError NewBitRateSelectionError.InputFrequency
      else if c = 0x26 then
        SessionStep.domainError NewBitRateSelectionError.MultiplicationRatio
      else if c = 0x27 then
        SessionStep.domainError NewBitRateSelectionError.OperatingFrequency
      else SessionStep.panicked
  | ReadOutcome.panicked => SessionStep.panicked
  | ReadOutcome.ioError => SessionStep.ioError

/-- Modelled from the spec: the source file of the `X256ByteProgramming`
command (opcode 0x50) is absent from the snapshot; only its caller
`programmer.rs` is present. Per the spec the command carries
`has_size_field = true` and a payload of the 4-byte big-endian address
followed by the 256 data bytes. -/
def x256ByteProgramming_command_data (address : Nat) (data : List Nat) :
    CommandData :=
  ⟨0x50, true, be32 address ++ data⟩

/-- Modelled from the spec: error kinds of the 0x50 programming command
(error first byte 0xD0, codes 0x11 checksum, 0x2A address, 0x53
programming). -/
inductive X256ByteProgrammingError where
  | Checksum
  | Address
  | Programming
deriving DecidableEq, Repr

/-- Modelled from the spec: `X256ByteProgramming::execute` — transmit the
encoded frame, then read a Simple response with success first byte 0x06 and
error first byte 0xD0; unknown error codes panic as in the sibling command
sources. The transport outlives the call. -/
def x256_execute (address : Nat) (data : List Nat) (t : PTarget) :
    CmdOutcome X256ByteProgrammingError × PTarget :=
  match readResponseWE [0x06] 0xD0 simpleBody
      (t.tx (x256ByteProgramming_command_data address data).bytes).input with
  | ReadOutcome.ok _ rest =>
      (CmdOutcome.ok,
       ⟨rest, (t.tx (x256ByteProgramming_command_data address data).bytes).events⟩)
  | ReadOutcome.err c rest =>
      ((if c = 0x11 then CmdOutcome.domainError X256ByteProgrammingError.Checksum
        else if c = 0x2A then
          CmdOutcome.domainError X256ByteProgrammingError.Address
        else if c = 0x53 then
          CmdOutcome.domainError X256ByteProgrammingError.Programming
        else CmdOutcome.panicked),
       ⟨rest, (t.tx (x256ByteProgramming_command_data address data).bytes).events⟩)
  | ReadOutcome.panicked =>
      (CmdOutcome.panicked,
       t.tx (x256ByteProgramming_command_data address data).bytes)
  | ReadOutcome.ioError =>
      (CmdOutcome.ioError,
       t.tx (x256ByteProgramming_command_data address data).bytes)

/-- Embeds `ProgrammerConnectedWaitingForData::program_block`: executes the
0x50 command over the borrowed session (`&mut self`), so the session target
survives whatever the outcome. -/
def program_block (address : Nat) (data : List Nat) (t : PTarget) :
    CmdOutcome X256ByteProgrammingError × PTarget :=
  x256_execute address data t

/-- Embeds `ProgrammerConnectedWaitingForData::end`: sends the 0x50 command
with address 0xFFFFFFFF and 256 zero bytes; a device-reported error hits
`panic!("End programming should not give error!")` instead of being
surfaced. -/
def programmer_end (t : PTarget) : SessionStep Empty :=
  match x256_execute 0xFFFFFFFF (List.replicate 256 0x00) t with
  | (CmdOutcome.ok, t1) => SessionStep.next t1
  | (CmdOutcome.domainError _, _) => SessionStep.panicked
  | (CmdOutcome.panicked, _) => SessionStep.panicked
  | (CmdOutcome.ioError, _) => SessionStep.ioError

/-- C4: on a 0x06 acknowledgement of `NewBitRateSelection` the session emits
exactly the command frame, then the local baud change, then the opcode-only
0x06 confirmation whose reader expects 0x06 back, with no other traffic
interleaved; the baud rate actually set is `bit_rate * 100` reduced modulo
2^16 (`u16` multiplication), so bit rate 0x00C0 gives 19200 but bit rate
1152 (115200 bps) gives 49664, not 115200. -/
theorem set_new_bit_rate_trace_C4 (bit_rate input_frequency : Nat)
    (multiplication_ratios : List MultRatio) (rest : List Nat) (evs : List Ev) :
    set_new_bit_rate bit_rate input_frequency multiplication_ratios
        ⟨0x06 :: 0x06 :: rest, evs⟩
      = SessionStep.next ⟨rest,
          evs ++ [Ev.w (newBitRateSelection_command_data bit_rate
                    input_frequency multiplication_ratios).bytes,
                  Ev.baud (bit_rate * 100 % 65536),
                  Ev.w [0x06]]⟩
    ∧ set_new_bit_rate 0x00C0 0x04E2 [] ⟨[0x06, 0x06], []⟩
      = SessionStep.next ⟨[],
          [Ev.w (newBitRateSelection_command_data 0x00C0 0x04E2 []).bytes,
           Ev.baud 19200, Ev.w [0x06]]⟩
    ∧ set_new_bit_rate 1152 0x04E2 [] ⟨[0x06, 0x06], []⟩
      = SessionStep.next ⟨[],
          [Ev.w (newBitRateSelection_command_data 1152 0x04E2 []).bytes,
           Ev.baud 49664, Ev.w [0x06]]⟩
    ∧ 1152 * 100 ≠ 49664 := by
  refine ⟨?_, by decide, by decide, by decide⟩
  have hconf : newBitRateSelectionConfirmation_command_data.bytes = [0x06] := by
    decide
  simp [set_new_bit_rate, readResponseWE, readResponseNE, readFirstByte, read1,
    simpleBody, PTarget.tx, PTarget.set_baud_rate, hconf]

/-- C9: the 0x50 programming command encodes as opcode 0x50, size byte 0x04
(260 mod 256), the 4-byte big-endian address, the 256 data bytes, and a
trailing checksum that covers the opcode, the size byte and the whole
260-byte payload (the total sum is divisible by 256). -/
theorem x256_programming_encoding_C9 (address : Nat) (data : List Nat)
    (hlen : data.length = 256) :
    ∃ cks : Nat, cks < 256 ∧
      (x256ByteProgramming_command_data address data).bytes
        = 0x50 :: 0x04 :: ((be32 address ++ data) ++ [cks])
      ∧ ((x256ByteProgramming_command_data address data).bytes).sum % 256 = 0 := by
  have hplen : (be32 address ++ data).length = 260 := by
    simp [be32, hlen]
  refine ⟨(256 - sumMod256 ([0x50] ++ [(be32 address ++ data).length % 256]
      ++ (be32 address ++ data))) % 256,
    Nat.mod_lt _ (by norm_num), ?_, ?_⟩
  · unfold x256ByteProgramming_command_data CommandData.bytes
    simp only [hplen]
    norm_num
  · exact bytes_sum_mod256 _ (by simp [x256ByteProgramming_command_data, hplen])

/-- Witness for C9 at the end-of-programming marker block. -/
theorem x256_programming_encoding_C9_witness :
    ∃ cks : Nat, cks < 256 ∧
      (x256ByteProgramming_command_data 0xFFFFFFFF
          (List.replicate 256 0x00)).bytes
        = 0x50 :: 0x04 :: ((be32 0xFFFFFFFF ++ List.replicate 256 0x00) ++ [cks])
      ∧ ((x256ByteProgramming_command_data 0xFFFFFFFF
          (List.replicate 256 0x00)).bytes).sum % 256 = 0 :=
  x256_programming_encoding_C9 0xFFFFFFFF (List.replicate 256 0x00)
    (by rw [List.length_replicate])

/-- C8 counterexample: when the device reports the domain error 0xD0/0x2A to
the end-of-programming command, `end` panics instead of surfacing a typed
error value and leaves no session behind. -/
theorem end_domain_error_C8_counterexample :
    programmer_end ⟨[0xD0, 0x2A], []⟩ = SessionStep.panicked := by
  decide

/-- C8 (amended): `select_device`, `set_new_bit_rate` and `program_block`
surface device-reported errors as typed error values, but only
`program_block` (which borrows the session) leaves the session in its prior
phase for a retry; the phase-consuming `select_device` and
`set_new_bit_rate` drop the session on a domain error, and `end` panics on
any device-reported error code. -/
theorem session_domain_error_C8 (rest rest2 : List Nat) (evs evs2 : List Ev)
    (device_code : List Nat) (hdc : device_code.length = 4)
    (bit_rate input_frequency address c : Nat)
    (multiplication_ratios : List MultRatio) (data : List Nat) :
    select_device device_code ⟨0x90 :: 0x21 :: rest, evs⟩
        = SessionStep.domainError DeviceSelectionError.DeviceCode
    ∧ set_new_bit_rate bit_rate input_frequency multiplication_ratios
          ⟨0xBF :: 0x24 :: rest, evs⟩
        = SessionStep.domainError NewBitRateSelectionError.BitRateSelection
    ∧ program_block address data ⟨0xD0 :: 0x53 :: rest, evs⟩
        = (CmdOutcome.domainError X256ByteProgrammingError.Programming,
           ⟨rest, evs ++ [Ev.w (x256ByteProgramming_command_data address data).bytes]⟩)
    ∧ program_block address data ⟨0x06 :: rest2, evs2⟩
        = (CmdOutcome.ok,
           ⟨rest2, evs2 ++ [Ev.w (x256ByteProgramming_command_data address data).bytes]⟩)
    ∧ programmer_end ⟨0xD0 :: c :: rest, evs⟩ = SessionStep.panicked := by
  refine ⟨?_, ?_, ?_, ?_, ?_⟩
  · simp [select_device, hdc, readResponseWE, readFirstByte, read1, PTarget.tx]
  · simp [set_new_bit_rate, readResponseWE, readFirstByte, read1, PTarget.tx]
  · simp [program_block, x256_execute, readResponseWE, readFirstByte, read1,
      PTarget.tx]
  · simp [program_block, x256_execute, readResponseWE, readFirstByte, read1,
      simpleBody, PTarget.tx]
  · simp only [programmer_end, x256_execute, readResponseWE, readFirstByte,
      read1, PTarget.tx]
    norm_num
    split_ifs <;> rfl

/-- Witness for C8 (amended) at concrete streams and parameters. -/
theorem session_domain_error_C8_witness :
    select_device [0x44, 0x45, 0x56, 0x31] ⟨0x90 :: 0x21 :: [], []⟩
        = SessionStep.domainError DeviceSelectionError.DeviceCode
    ∧ set_new_bit_rate 0x00C0 0x04E2 []
          ⟨0xBF :: 0x24 :: [], []⟩
        = SessionStep.domainError NewBitRateSelectionError.BitRateSelection
    ∧ program_block 0 (List.replicate 256 0xFF) ⟨0xD0 :: 0x53 :: [], []⟩
        = (CmdOutcome.domainError X256ByteProgrammingError.Programming,
           ⟨[], [] ++ [Ev.w (x256ByteProgramming_command_data 0
              (List.replicate 256 0xFF)).bytes]⟩)
    ∧ program_block 0 (List.replicate 256 0xFF) ⟨0x06 :: [], []⟩
        = (CmdOutcome.ok,
           ⟨[], [] ++ [Ev.w (x256ByteProgramming_command_data 0
              (List.replicate 256 0xFF)).bytes]⟩)
    ∧ programmer_end ⟨0xD0 :: 0x2A :: [], []⟩ = SessionStep.panicked :=
  session_domain_error_C8 [] [] [] [] [0x44, 0x45, 0x56, 0x31] (by decide)
    0x00C0 0x04E2 0 0x2A [] (List.replicate 256 0xFF)

/-! ## L4 image model (src/image.rs) -/

/-- Embeds `Block`: a programmable chunk with its start address. -/
structure Block where
  start_address : Nat
  data : List Nat
deriving DecidableEq, Repr

/-- Embeds `Region`: an inclusive address range `lo..=hi` and its bytes. -/
structure Region where
  lo : Nat
  hi : Nat
  data : List Nat
deriving DecidableEq, Repr

/-- Embeds `Image`: an ordered sequence of regions. -/
structure Image where
  regions : List Region
deriving DecidableEq, Repr

/-- Embeds `Image::new`: each region's bytes are pre-filled with the
unprogrammed sentinel 0xFF. -/
def Image.new (ranges : List (Nat × Nat)) : Image :=
  ⟨ranges.map (fun r => ⟨r.1, r.2, List.replicate (r.2 - r.1 + 1) 0xFF⟩)⟩

/-- Embeds `slice::chunks_exact`: consecutive chunks of exactly
`block_length` elements, discarding any shorter remainder. -/
def chunksExact (L : Nat) (l : List Nat) : List (List Nat) :=
  if _h : 0 < L ∧ L ≤ l.length then
    l.take L :: chunksExact L (l.drop L)
  else []
termination_by l.length
decreasing_by
  simp only [List.length_drop]
  omega

/-- Embeds `Iterator::enumerate` starting at index `i`. -/
def enumerate {α : Type} (i : Nat) : List α → List (Nat × α)
  | [] => []
  | x :: xs => (i, x) :: enumerate (i + 1) xs

/-- Embeds `Image::programmable_blocks`: for each region in order, the exact
chunks of `block_length` bytes become blocks at `lo + i * block_length`, and
blocks consisting entirely of 0xFF are filtered out. -/
def Image.programmable_blocks (img : Image) (block_length : Nat) : List Block :=
  (img.regions.flatMap (fun region =>
    (enumerate 0 (chunksExact block_length region.data)).map
      (fun ic => Block.mk (region.lo + ic.1 * block_length) ic.2))).filter
    (fun block => ! block.data.all (fun x => x == 0xFF))

theorem region_blocks_eq (L : Nat) (hL : 0 < L) :
    ∀ (n : Nat) (d : List Nat), d.length = n → ∀ (lo i0 : Nat),
    (enumerate i0 (chunksExact L d)).map
        (fun ic => Block.mk (lo + ic.1 * L) ic.2)
      = (List.range (d.length / L)).map
          (fun j => Block.mk (lo + (i0 + j) * L) ((d.drop (j * L)).take L)) := by
  intro n
  induction n using Nat.strong_induction_on with
  | _ n ih =>
      intro d hd lo i0
      rw [chunksExact]
      by_cases h : L ≤ d.length
      · rw [dif_pos ⟨hL, h⟩]
        rw [enumerate, List.map_cons]
        rw [ih (d.length - L) (by omega) (d.drop L) (by simp) lo (i0 + 1)]
        have hq : d.length / L = (d.length - L) / L + 1 :=
          Nat.div_eq_sub_div hL h
        rw [List.length_drop, hq, List.range_succ_eq_map]
        rw [List.map_cons, List.map_map]
        refine congrArg₂ _ ?_ ?_
        · simp
        · refine List.map_congr_left ?_
          intro j _
          simp only [Function.comp_apply]
          refine congrArg₂ _ ?_ ?_
          · simp only [Nat.succ_eq_add_one]
            ring
          · rw [List.drop_drop]
            have harith : L + j * L = j.succ * L := by
              simp only [Nat.succ_eq_add_one]
              ring
            rw [harith]
      · rw [dif_neg (fun hc => h hc.2)]
        have h0 : d.length / L = 0 := Nat.div_eq_of_lt (by omega)
        simp [h0, enumerate]

/-- For a positive block length, the emitted blocks are exactly the
`length / L` consecutive `L`-byte windows of each region, at
`lo + i * L`, with the all-0xFF windows removed. -/
theorem programmable_blocks_eq (img : Image) (L : Nat) (hL : 0 < L) :
    img.programmable_blocks L
      = (img.regions.flatMap (fun region =>
          (List.range (region.data.length / L)).map
            (fun i => Block.mk (region.lo + i * L)
              ((region.data.drop (i * L)).take L)))).filter
        (fun block => ! block.data.all (fun x => x == 0xFF)) := by
  unfold Image.programmable_blocks
  refine congrArg _ (congrArg₂ _ rfl ?_)
  funext region
  rw [region_blocks_eq L hL region.data.length region.data rfl region.lo 0]
  refine List.map_congr_left ?_
  intro j _
  simp

set_option maxRecDepth 8192 in
/-- C7: for every image and block length, `programmable_blocks` yields, per
region in declaration order, the `⌊region length / L⌋` consecutive `L`-byte
blocks starting at `lo + i * L`, skipping blocks that are entirely 0xFF and
emitting nothing for a residual tail shorter than `L`; a 256-byte region
that is all 0xFF except two bytes yields exactly one block at the region
start. -/
theorem programmable_blocks_C7 (img : Image) (L : Nat) (hL : 0 < L) :
    img.programmable_blocks L
      = (img.regions.flatMap (fun region =>
          (List.range (region.data.length / L)).map
            (fun i => Block.mk (region.lo + i * L)
              ((region.data.drop (i * L)).take L)))).filter
        (fun block => ! block.data.all (fun x => x == 0xFF))
    ∧ Image.programmable_blocks
        ⟨[⟨0x1000, 0x10FF,
            List.replicate 16 0xFF ++ [0x01, 0x02] ++ List.replicate 238 0xFF⟩]⟩
        256
      = [⟨0x1000,
          List.replicate 16 0xFF ++ [0x01, 0x02] ++ List.replicate 238 0xFF⟩] := by
  refine ⟨programmable_blocks_eq img L hL, ?_⟩
  rw [programmable_blocks_eq _ _ (by norm_num)]
  decide

/-- Witness for C7 at the two-byte 256-byte region of the spec's test law. -/
theorem programmable_blocks_C7_witness :
    Image.programmable_blocks
        ⟨[⟨0x1000, 0x10FF,
            List.replicate 16 0xFF ++ [0x01, 0x02] ++ List.replicate 238 0xFF⟩]⟩
        256
      = [⟨0x1000,
          List.replicate 16 0xFF ++ [0x01, 0x02] ++ List.replicate 238 0xFF⟩] :=
  (programmable_blocks_C7 ⟨[]⟩ 256 (by norm_num)).2

end Rxprog
